import Mathlib

/-!
Shallow embedding of the device-tree fixup/installation subsystem of
`linux-bootloader` (files `fdt_loader.rs` and `uefi_helpers.rs`) and
verification of its specification claims.

Machine integers are modelled as `Nat` with the platform word size passed
explicitly as `bits` (the value of `usize::BITS`); overflow checks are
written out against `2 ^ bits`.  The firmware (fixup protocol, page
allocator, loaded-image query) is external to the repository and is
modelled as oracles following the external-interface description:
`fixup(buffer, *mut size, flags) -> status` returns a status and writes a
size back, `allocate_pages` returns a fresh memory region or an error.
-/

/-- Source `UEFI_PAGE_BITS` from `uefi_helpers.rs`: UEFI mandates 4 KiB pages. -/
def UEFI_PAGE_BITS : Nat := 12

/-- Source `UEFI_PAGE_MASK` from `uefi_helpers.rs`: `(1 << UEFI_PAGE_BITS) - 1`. -/
def UEFI_PAGE_MASK : Nat := (1 <<< UEFI_PAGE_BITS) - 1

/-- The page size in bytes, `1 << UEFI_PAGE_BITS` = 4096. -/
def UEFI_PAGE_SIZE : Nat := 1 <<< UEFI_PAGE_BITS

/-- Rust `usize::checked_add` on a platform whose `usize` has `bits` bits:
`some (a + b)` when the sum is representable, `none` on overflow. -/
def usize_checked_add (bits a b : Nat) : Option Nat :=
  if a + b < 2 ^ bits then some (a + b) else none

/-- Source `bytes_to_pages` from `uefi_helpers.rs`:
`bytes.checked_add(UEFI_PAGE_MASK).map(|r| r >> UEFI_PAGE_BITS).unwrap_or(1 << (usize::BITS - UEFI_PAGE_BITS))`. -/
def bytes_to_pages (bits bytes : Nat) : Nat :=
  match usize_checked_add bits bytes UEFI_PAGE_MASK with
  | some rounded_up => rounded_up >>> UEFI_PAGE_BITS
  | none => 1 <<< (bits - UEFI_PAGE_BITS)

/-- The saturation value returned by `bytes_to_pages` on overflow:
`1 << (usize::BITS - UEFI_PAGE_BITS)`, the number of pages covering the
whole `bits`-bit address space. -/
def MAX_PAGE_COUNT (bits : Nat) : Nat := 1 <<< (bits - UEFI_PAGE_BITS)

/-- UEFI status codes are `usize`-wide; the error bit is the top bit. -/
def ERROR_BIT (bits : Nat) : Nat := 2 ^ (bits - 1)

/-- Source `Status::SUCCESS` = 0. -/
def EFI_SUCCESS : Nat := 0

/-- Source `Status::BUFFER_TOO_SMALL` = `ERROR_BIT | 5`. -/
def BUFFER_TOO_SMALL (bits : Nat) : Nat := ERROR_BIT bits + 5

/-- Source `Status::INVALID_PARAMETER` = `ERROR_BIT | 2`. -/
def INVALID_PARAMETER (bits : Nat) : Nat := ERROR_BIT bits + 2

/-- Source `Status::to_result()`: `Ok(())` on success, otherwise `Err(status)`. -/
def status_to_result (s : Nat) : Except Nat Unit :=
  if s = EFI_SUCCESS then .ok () else .error s

/-- Source `PeInMemory` from `uefi_helpers.rs`: base address and size of the
currently running image. -/
structure PeInMemory where
  image_base : Nat
  image_size : Nat
  deriving DecidableEq, Repr

/-- Rust `usize::try_from(v: u64)` mapped through
`.map_err(|_| uefi::Status::INVALID_PARAMETER)`: succeeds exactly when the
value fits the platform's `usize`. -/
def usize_try_from (bits v : Nat) : Except Nat Nat :=
  if v < 2 ^ bits then .ok v else .error (INVALID_PARAMETER bits)

/-- Source `booted_image_file` from `uefi_helpers.rs`.  The firmware side —
`open_protocol_exclusive::<LoadedImage>` followed by `loaded_image.info()`
— is passed in as `openRes`: either an error status or the reported
`(image_base, image_size)` pair (the size is a `u64`). -/
def booted_image_file (bits : Nat) (openRes : Except Nat (Nat × Nat)) :
    Except Nat PeInMemory :=
  match openRes with
  | .error e => .error e
  | .ok (image_base, image_size) =>
    match usize_try_from bits image_size with
    | .error e => .error e
    | .ok s => .ok { image_base := image_base, image_size := s }

/-- Source `DTFixupFlags::APPLY_FIXUPS` = `1 << 0` (a `u32` bitflag). -/
def APPLY_FIXUPS : Nat := 1 <<< 0

/-- Source `DTFixupFlags::RESERVE_MEMORY` = `1 << 1` (a `u32` bitflag). -/
def RESERVE_MEMORY : Nat := 1 <<< 1

/-- The flags value passed on every fixup call in `fixup_fdt`:
`DTFixupFlags::APPLY_FIXUPS | DTFixupFlags::RESERVE_MEMORY`. -/
def FIXUP_FLAGS : Nat := APPLY_FIXUPS ||| RESERVE_MEMORY

/-- Source `uefi::table::boot::AllocateType`, as used by `allocate_pages`. -/
inductive AllocateType where
  | anyPages
  | maxAddress (addr : Nat)
  | address (addr : Nat)
  deriving DecidableEq, Repr

/-- UEFI memory types are numeric; `MemoryType::ACPI_NON_VOLATILE` = 10. -/
def ACPI_NON_VOLATILE : Nat := 10

/-- Response of one firmware fixup call, per the external interface
`fixup(buffer_pointer, *mut size, flags) -> status`: the returned status
and the value the firmware wrote back into the size slot. -/
structure FixupResponse where
  status : Nat
  sizeOut : Nat
  deriving DecidableEq, Repr

/-- The firmware fixup protocol obtained from `open_protocol_exclusive`:
a function of the call index (0 = first call, 1 = retry), the buffer
contents, the size argument and the flags. -/
def FixupProto : Type := Nat → List Nat → Nat → Nat → FixupResponse

/-- The firmware page allocator `allocate_pages(ty, mem_ty, count)`:
returns an error status or the contents of the freshly provided region. -/
def PageAlloc : Type := AllocateType → Nat → Nat → Except Nat (List Nat)

/-- Observable side effects of `fixup_fdt`, in order of occurrence:
fixup protocol invocations (buffer, size argument, flags), page
allocations (policy, memory type, page count) and the byte copy into a
new allocation. -/
inductive Event where
  | fixupCall (buf : List Nat) (sizeIn : Nat) (flags : Nat)
  | alloc (ty : AllocateType) (memTy : Nat) (pages : Nat)
  | copy (bytes : List Nat)
  deriving DecidableEq, Repr

/-- Is this event a page allocation? -/
def Event.isAlloc : Event → Bool
  | .alloc _ _ _ => true
  | _ => false

/-- Is this event a fixup protocol invocation? -/
def Event.isFixup : Event → Bool
  | .fixupCall _ _ _ => true
  | _ => false

/-- Project out an allocation event's arguments. -/
def Event.allocArgs : Event → Option (AllocateType × Nat × Nat)
  | .alloc ty memTy pages => some (ty, memTy, pages)
  | _ => none

/-- Project out a copy event's bytes. -/
def Event.copyBytes : Event → Option (List Nat)
  | .copy bytes => some bytes
  | _ => none

/-- Project out a fixup invocation's `(sizeIn, flags)` arguments. -/
def Event.fixupArgs : Event → Option (Nat × Nat)
  | .fixupCall _ sizeIn flags => some (sizeIn, flags)
  | _ => none

/-- Source `fixup_fdt` from `fdt_loader.rs`, together with the trace of its
observable firmware interactions.

`openProtocol` models `open_protocol_exclusive::<DTFixupProtocol>`:
either an error status or the protocol's fixup function.  The body
follows the source line by line: call fixup with the buffer's length and
both flags; on success return `Ok(())`; on any status other than
`BUFFER_TOO_SMALL` return `status.to_result()`; otherwise compute
`bytes_to_pages` of the written-back size, round the size up to the page
boundary (a `usize` shift, hence reduced mod `2 ^ bits`), allocate that
many `ACPI_NON_VOLATILE` pages at any address, copy `fdt_data.len()`
bytes of the old buffer into the new region, and retry once, returning
the retry's `to_result()`. -/
def fixup_fdt (bits : Nat) (openProtocol : Except Nat FixupProto)
    (alloc : PageAlloc) (fdt_data : List Nat) :
    Except Nat Unit × List Event :=
  match openProtocol with
  | .error e => (.error e, [])
  | .ok fixup =>
    let fdt_size := fdt_data.length
    let r1 := fixup 0 fdt_data fdt_size FIXUP_FLAGS
    let ev1 := [Event.fixupCall fdt_data fdt_size FIXUP_FLAGS]
    if r1.status = EFI_SUCCESS then
      (.ok (), ev1)
    else if r1.status ≠ BUFFER_TOO_SMALL bits then
      (status_to_result r1.status, ev1)
    else
      let num_pages := bytes_to_pages bits r1.sizeOut
      let fdt_size2 := (num_pages <<< UEFI_PAGE_BITS) % 2 ^ bits
      match alloc .anyPages ACPI_NON_VOLATILE num_pages with
      | .error e =>
        (.error e, ev1 ++ [Event.alloc .anyPages ACPI_NON_VOLATILE num_pages])
      | .ok region =>
        let copied := fdt_data
        let newBuf := copied ++ region.drop fdt_data.length
        let r2 := fixup 1 newBuf fdt_size2 FIXUP_FLAGS
        (status_to_result r2.status,
         ev1 ++ [Event.alloc .anyPages ACPI_NON_VOLATILE num_pages,
                 Event.copy copied,
                 Event.fixupCall newBuf fdt_size2 FIXUP_FLAGS])

/-- Outcome of a Rust computation that may also hit a fatal defect
(`assert!` failure or `todo!()`): a panic/abort, a returned error status,
or a returned value. -/
inductive POutcome (α : Type) where
  | panic
  | err (e : Nat)
  | ok (a : α)
  deriving DecidableEq, Repr

/-- Source `install_fdt` from `fdt_loader.rs`: the fixup-free fallback is
`todo!()`, which panics unconditionally. -/
def install_fdt (_fdt_data : List Nat) : POutcome Unit := .panic

/-- Source `FdtLoader` from `fdt_loader.rs`: a handle and the `set` flag
recording whether the loader is still Installed. -/
structure FdtLoader where
  handle : Nat
  set : Bool
  deriving DecidableEq, Repr

/-- Source `FdtLoader::new`.  `fixupHandle` models
`get_handle_for_protocol::<DTFixupProtocol>()`: when it yields a handle,
`fixup_fdt` runs (with the given firmware oracles) and its error, if any,
is propagated by `?`; otherwise the `install_fdt` fallback panics.  On
success the loader starts with `set = true` (Installed). -/
def FdtLoader.new (bits : Nat) (fixupHandle : Option Nat)
    (openProtocol : Except Nat FixupProto) (alloc : PageAlloc)
    (handle : Nat) (fdt_data : List Nat) : POutcome FdtLoader :=
  match fixupHandle with
  | some _ =>
    match (fixup_fdt bits openProtocol alloc fdt_data).1 with
    | .error e => .err e
    | .ok () => .ok { handle := handle, set := true }
  | none =>
    match install_fdt fdt_data with
    | .panic => .panic
    | .err e => .err e
    | .ok () => .ok { handle := handle, set := true }

/-- Source `FdtLoader::uninstall`: `assert!(self.set)` (panic when already
Uninstalled), then `self.set = false` and `Ok(())`.  Returns the value
together with the updated object. -/
def FdtLoader.uninstall (l : FdtLoader) : POutcome (Unit × FdtLoader) :=
  if l.set then .ok ((), { l with set := false }) else .panic

/-- Source `Drop for FdtLoader`: `assert!(!self.set)` — dropping while still
Installed panics. -/
def FdtLoader.drop (l : FdtLoader) : POutcome Unit :=
  if l.set then .panic else .ok ()

/-! Helper lemmas -/

theorem shiftLeft_one (k : Nat) : 1 <<< k = 2 ^ k := by
  simp [Nat.shiftLeft_eq]

theorem UEFI_PAGE_SIZE_eq : UEFI_PAGE_SIZE = 4096 := by
  simp [UEFI_PAGE_SIZE, UEFI_PAGE_BITS, Nat.shiftLeft_eq]

theorem UEFI_PAGE_MASK_eq : UEFI_PAGE_MASK = 4095 := by
  simp [UEFI_PAGE_MASK, UEFI_PAGE_BITS, Nat.shiftLeft_eq]

/-- In the non-overflowing case `bytes_to_pages` is the rounded-up
division by the page size. -/
theorem bytes_to_pages_eq_div (bits L : Nat) (h : L + UEFI_PAGE_MASK < 2 ^ bits) :
    bytes_to_pages bits L = (L + UEFI_PAGE_MASK) / UEFI_PAGE_SIZE := by
  simp [bytes_to_pages, usize_checked_add, h, Nat.shiftRight_eq_div_pow,
    UEFI_PAGE_SIZE_eq, UEFI_PAGE_BITS]

theorem BUFFER_TOO_SMALL_ne_success (bits : Nat) :
    BUFFER_TOO_SMALL bits ≠ EFI_SUCCESS := by
  simp only [BUFFER_TOO_SMALL, EFI_SUCCESS, ERROR_BIT]
  exact Nat.ne_of_gt (by positivity)

/-! Claims -/

/-- C4: for every byte length `L` whose page rounding does not overflow
the `bits`-bit unsigned size type, `bytes_to_pages bits L` is the minimal
page count `p` with `p * 4096 ≥ L`; in particular `bytes_to_pages bits 0
= 0`. -/
theorem bytes_to_pages_minimal (bits L : Nat) (h12 : UEFI_PAGE_BITS ≤ bits)
    (hov : L + UEFI_PAGE_MASK < 2 ^ bits) :
    L ≤ bytes_to_pages bits L * UEFI_PAGE_SIZE ∧
    (∀ p : Nat, L ≤ p * UEFI_PAGE_SIZE → bytes_to_pages bits L ≤ p) ∧
    bytes_to_pages bits 0 = 0 := by
  have h4096 : 2 ^ UEFI_PAGE_BITS ≤ 2 ^ bits :=
    Nat.pow_le_pow_right (by norm_num) h12
  have hmask : UEFI_PAGE_MASK = 4095 := UEFI_PAGE_MASK_eq
  have hsz : UEFI_PAGE_SIZE = 4096 := UEFI_PAGE_SIZE_eq
  have h0 : (0 : Nat) + UEFI_PAGE_MASK < 2 ^ bits := by
    have : (2 : Nat) ^ UEFI_PAGE_BITS = 4096 := by norm_num [UEFI_PAGE_BITS]
    omega
  rw [bytes_to_pages_eq_div bits L hov, bytes_to_pages_eq_div bits 0 h0, hmask, hsz]
  have hd := Nat.div_add_mod (L + 4095) 4096
  have hm : (L + 4095) % 4096 < 4096 := Nat.mod_lt _ (by norm_num)
  refine ⟨by omega, ?_, by norm_num⟩
  intro p hp
  by_contra hlt
  push_neg at hlt
  omega

/-- Witness for C4 at `bits = 64`, `L = 5000`. -/
theorem bytes_to_pages_minimal_witness :
    5000 ≤ bytes_to_pages 64 5000 * UEFI_PAGE_SIZE ∧
    bytes_to_pages 64 5000 ≤ 2 ∧
    bytes_to_pages 64 0 = 0 :=
  ⟨(bytes_to_pages_minimal 64 5000 (by decide) (by decide)).1,
   (bytes_to_pages_minimal 64 5000 (by decide) (by decide)).2.1 2 (by decide),
   (bytes_to_pages_minimal 64 5000 (by decide) (by decide)).2.2⟩

/-- C5: for every byte length `L` within one page mask of overflow
(`L + 4095` does not fit in `bits` bits), `bytes_to_pages` neither wraps
nor errors: it returns the saturation value `MAX_PAGE_COUNT bits =
2 ^ (bits - 12)`, which is representable in `bits` bits, covers the whole
address space (`MAX_PAGE_COUNT bits * 4096 = 2 ^ bits`), and — for any
such `L` that is itself representable — is still the minimal page count
`p` with `p * 4096 ≥ L`. -/
theorem bytes_to_pages_saturates (bits L : Nat) (h12 : UEFI_PAGE_BITS ≤ bits)
    (hov : ¬ L + UEFI_PAGE_MASK < 2 ^ bits) :
    bytes_to_pages bits L = MAX_PAGE_COUNT bits ∧
    MAX_PAGE_COUNT bits < 2 ^ bits ∧
    MAX_PAGE_COUNT bits * UEFI_PAGE_SIZE = 2 ^ bits ∧
    (L < 2 ^ bits →
      L ≤ MAX_PAGE_COUNT bits * UEFI_PAGE_SIZE ∧
      ∀ p : Nat, L ≤ p * UEFI_PAGE_SIZE → MAX_PAGE_COUNT bits ≤ p) := by
  have hval : bytes_to_pages bits L = MAX_PAGE_COUNT bits := by
    simp [bytes_to_pages, usize_checked_add, hov, MAX_PAGE_COUNT]
  have hcov : MAX_PAGE_COUNT bits * UEFI_PAGE_SIZE = 2 ^ bits := by
    rw [MAX_PAGE_COUNT, shiftLeft_one, UEFI_PAGE_SIZE_eq]
    have : (4096 : Nat) = 2 ^ UEFI_PAGE_BITS := by norm_num [UEFI_PAGE_BITS]
    rw [this, ← Nat.pow_add]
    congr 1
    omega
  have hpos : 1 ≤ MAX_PAGE_COUNT bits := by
    rw [MAX_PAGE_COUNT, shiftLeft_one]
    exact Nat.one_le_two_pow
  have hsz : UEFI_PAGE_SIZE = 4096 := UEFI_PAGE_SIZE_eq
  have hrep : MAX_PAGE_COUNT bits < 2 ^ bits := by
    have := hcov
    rw [hsz] at this
    omega
  refine ⟨hval, hrep, hcov, fun hL => ⟨by omega, fun p hp => ?_⟩⟩
  have hmask : UEFI_PAGE_MASK = 4095 := UEFI_PAGE_MASK_eq
  rw [hsz] at hp
  rw [hmask] at hov
  have hc : MAX_PAGE_COUNT bits * 4096 = 2 ^ bits := by
    rw [hsz] at hcov; exact hcov
  by_contra hlt
  push_neg at hlt
  have : (p + 1) * 4096 ≤ MAX_PAGE_COUNT bits * 4096 :=
    Nat.mul_le_mul_right _ hlt
  omega

/-- Witness for C5 at `bits = 64`, `L = 2 ^ 64 - 1`. -/
theorem bytes_to_pages_saturates_witness :
    bytes_to_pages 64 (2 ^ 64 - 1) = MAX_PAGE_COUNT 64 ∧
    MAX_PAGE_COUNT 64 < 2 ^ 64 ∧
    MAX_PAGE_COUNT 64 * UEFI_PAGE_SIZE = 2 ^ 64 ∧
    2 ^ 64 - 1 ≤ MAX_PAGE_COUNT 64 * UEFI_PAGE_SIZE :=
  ⟨(bytes_to_pages_saturates 64 (2 ^ 64 - 1) (by decide) (by decide)).1,
   (bytes_to_pages_saturates 64 (2 ^ 64 - 1) (by decide) (by decide)).2.1,
   (bytes_to_pages_saturates 64 (2 ^ 64 - 1) (by decide) (by decide)).2.2.1,
   ((bytes_to_pages_saturates 64 (2 ^ 64 - 1) (by decide) (by decide)).2.2.2
     (by decide)).1⟩

/-- C9: `booted_image_file` fails with `INVALID_PARAMETER` exactly when
the firmware-reported image size does not fit the platform's `bits`-bit
unsigned size type; otherwise it succeeds and the returned extent's base
address and length exactly equal the reported base and size. -/
theorem booted_image_file_spec (bits base size : Nat) (_hsize : size < 2 ^ 64) :
    (booted_image_file bits (.ok (base, size)) = .error (INVALID_PARAMETER bits) ↔
      ¬ size < 2 ^ bits) ∧
    (size < 2 ^ bits →
      booted_image_file bits (.ok (base, size)) =
        .ok { image_base := base, image_size := size }) := by
  by_cases h : size < 2 ^ bits
  · simp [booted_image_file, usize_try_from, h]
  · simp [booted_image_file, usize_try_from, h]

/-- Witness for C9: a 2^40-byte image does not fit a 32-bit `usize`; a
4096-byte image on a 64-bit platform is reported verbatim. -/
theorem booted_image_file_spec_witness :
    booted_image_file 32 (.ok (7, 2 ^ 40)) = .error (INVALID_PARAMETER 32) ∧
    booted_image_file 64 (.ok (7, 4096)) =
      .ok { image_base := 7, image_size := 4096 } :=
  ⟨(booted_image_file_spec 32 7 (2 ^ 40) (by decide)).1.mpr (by decide),
   (booted_image_file_spec 64 7 4096 (by decide)).2 (by decide)⟩

/-- C10: for every `FdtLoader` in the Installed state, `uninstall`
returns the success value `()` — the error branch of its return type is
never taken — and its only state effect is setting `set` to `false`
(the Installed→Uninstalled transition), leaving the handle unchanged. -/
theorem uninstall_returns_ok (l : FdtLoader) (h : l.set = true) :
    l.uninstall = .ok ((), { handle := l.handle, set := false }) := by
  simp [FdtLoader.uninstall, h]

/-- Witness for C10 at the loader `⟨3, true⟩`. -/
theorem uninstall_returns_ok_witness :
    FdtLoader.uninstall { handle := 3, set := true } =
      .ok ((), { handle := 3, set := false }) :=
  uninstall_returns_ok { handle := 3, set := true } rfl

/-- C3: over an `FdtLoader`'s life exactly one Installed→Uninstalled
transition can occur: a successful `new` yields `set = true` (Installed);
a first `uninstall` while Installed succeeds and moves to `set = false`
(Uninstalled); a second `uninstall` panics; dropping while still
Installed panics; and dropping after uninstalling succeeds (so the panics
are fatal defects, not returned errors). -/
theorem fdt_loader_lifecycle (bits : Nat) (fixupHandle : Option Nat)
    (openProtocol : Except Nat FixupProto) (alloc : PageAlloc)
    (handle : Nat) (fdt_data : List Nat) (l l0 : FdtLoader)
    (hnew : FdtLoader.new bits fixupHandle openProtocol alloc handle fdt_data =
      .ok l0)
    (hset : l.set = true) :
    l0.set = true ∧
    l.uninstall = .ok ((), { handle := l.handle, set := false }) ∧
    FdtLoader.uninstall { handle := l.handle, set := false } = .panic ∧
    l.drop = .panic ∧
    FdtLoader.drop { handle := l.handle, set := false } = .ok () := by
  refine ⟨?_, ?_, ?_, ?_, ?_⟩
  · cases fixupHandle with
    | some fh =>
      simp only [FdtLoader.new] at hnew
      cases hfix : (fixup_fdt bits openProtocol alloc fdt_data).1 with
      | error e => rw [hfix] at hnew; exact absurd hnew (by simp)
      | ok u =>
        rw [hfix] at hnew
        cases hnew
        rfl
    | none =>
      simp only [FdtLoader.new, install_fdt] at hnew
      exact absurd hnew (by simp)
  · simp [FdtLoader.uninstall, hset]
  · simp [FdtLoader.uninstall]
  · simp [FdtLoader.drop, hset]
  · simp [FdtLoader.drop]

/-- Witness for C3: a fixup protocol that immediately succeeds gives an
Installed loader; uninstalling once succeeds, twice panics, dropping
while Installed panics. -/
theorem fdt_loader_lifecycle_witness :
    ({ handle := 3, set := true } : FdtLoader).set = true ∧
    FdtLoader.uninstall { handle := 3, set := true } =
      .ok ((), { handle := 3, set := false }) ∧
    FdtLoader.uninstall { handle := 3, set := false } = .panic ∧
    FdtLoader.drop { handle := 3, set := true } = .panic ∧
    FdtLoader.drop { handle := 3, set := false } = .ok () :=
  fdt_loader_lifecycle 64 (some 0)
    (.ok fun _ _ _ _ => { status := EFI_SUCCESS, sizeOut := 0 })
    (fun _ _ _ => .ok []) 3 [1, 2] { handle := 3, set := true }
    { handle := 3, set := true } rfl rfl

/-- C7: if the first fixup call returns `Success`, `fixup_fdt` returns
success immediately and the trace holds only that single fixup
invocation — no page allocation, no copy and no second fixup call
occur. -/
theorem fixup_fdt_first_success (bits : Nat) (fixup : FixupProto)
    (alloc : PageAlloc) (fdt_data : List Nat)
    (h : (fixup 0 fdt_data fdt_data.length FIXUP_FLAGS).status = EFI_SUCCESS) :
    fixup_fdt bits (.ok fixup) alloc fdt_data =
      (.ok (), [Event.fixupCall fdt_data fdt_data.length FIXUP_FLAGS]) ∧
    ((fixup_fdt bits (.ok fixup) alloc fdt_data).2.filterMap Event.allocArgs) =
      [] := by
  have hfix : fixup_fdt bits (.ok fixup) alloc fdt_data =
      (.ok (), [Event.fixupCall fdt_data fdt_data.length FIXUP_FLAGS]) := by
    simp [fixup_fdt, h]
  exact ⟨hfix, by rw [hfix]; simp [Event.allocArgs]⟩

/-- Witness for C7: a stub that succeeds on the first call. -/
theorem fixup_fdt_first_success_witness :
    fixup_fdt 64 (.ok fun _ _ _ _ => { status := EFI_SUCCESS, sizeOut := 0 })
        (fun _ _ _ => .ok []) [1, 2] =
      (.ok (), [Event.fixupCall [1, 2] ([1, 2] : List Nat).length FIXUP_FLAGS]) :=
  (fixup_fdt_first_success 64 (fun _ _ _ _ => { status := EFI_SUCCESS, sizeOut := 0 })
    (fun _ _ _ => .ok []) [1, 2] rfl).1

/-- C6: if the first fixup call returns a non-success status other than
`BUFFER_TOO_SMALL`, `fixup_fdt` fails with exactly that status and the
trace holds only that single fixup invocation — no retry and no page
allocation occur. -/
theorem fixup_fdt_first_error (bits : Nat) (fixup : FixupProto)
    (alloc : PageAlloc) (fdt_data : List Nat)
    (hs : (fixup 0 fdt_data fdt_data.length FIXUP_FLAGS).status ≠ EFI_SUCCESS)
    (hb : (fixup 0 fdt_data fdt_data.length FIXUP_FLAGS).status ≠
      BUFFER_TOO_SMALL bits) :
    fixup_fdt bits (.ok fixup) alloc fdt_data =
      (.error (fixup 0 fdt_data fdt_data.length FIXUP_FLAGS).status,
       [Event.fixupCall fdt_data fdt_data.length FIXUP_FLAGS]) := by
  simp [fixup_fdt, status_to_result, hs, hb]

/-- Witness for C6: a stub failing with the generic status 7, which is
neither success nor `BUFFER_TOO_SMALL`. -/
theorem fixup_fdt_first_error_witness :
    fixup_fdt 64 (.ok fun _ _ _ _ => { status := 7, sizeOut := 0 })
        (fun _ _ _ => .ok []) [1, 2] =
      (.error ((fun _ _ _ _ => { status := 7, sizeOut := 0 } : FixupProto) 0
          [1, 2] ([1, 2] : List Nat).length FIXUP_FLAGS).status,
       [Event.fixupCall [1, 2] ([1, 2] : List Nat).length FIXUP_FLAGS]) :=
  fixup_fdt_first_error 64 (fun _ _ _ _ => { status := 7, sizeOut := 0 })
    (fun _ _ _ => .ok []) [1, 2] (by decide) (by decide)

/-- Core evaluation of the grow path: if the first fixup call reports
`BUFFER_TOO_SMALL` writing back `R`, and the allocation succeeds with
region contents `region`, `fixup_fdt` produces exactly the
call/alloc/copy/retry trace and returns the retry's result. -/
theorem fixup_fdt_grow_eq (bits R : Nat) (fixup : FixupProto)
    (alloc : PageAlloc) (fdt_data region : List Nat)
    (hb : fixup 0 fdt_data fdt_data.length FIXUP_FLAGS =
      { status := BUFFER_TOO_SMALL bits, sizeOut := R })
    (halloc : alloc .anyPages ACPI_NON_VOLATILE (bytes_to_pages bits R) =
      .ok region) :
    fixup_fdt bits (.ok fixup) alloc fdt_data =
      (status_to_result (fixup 1 (fdt_data ++ region.drop fdt_data.length)
          ((bytes_to_pages bits R <<< UEFI_PAGE_BITS) % 2 ^ bits)
          FIXUP_FLAGS).status,
       [Event.fixupCall fdt_data fdt_data.length FIXUP_FLAGS,
        Event.alloc .anyPages ACPI_NON_VOLATILE (bytes_to_pages bits R),
        Event.copy fdt_data,
        Event.fixupCall (fdt_data ++ region.drop fdt_data.length)
          ((bytes_to_pages bits R <<< UEFI_PAGE_BITS) % 2 ^ bits)
          FIXUP_FLAGS]) := by
  simp [fixup_fdt, hb, BUFFER_TOO_SMALL_ne_success bits, halloc]

/-- C1: if the first fixup call reports `BUFFER_TOO_SMALL` and writes
back the required size `R`, the page allocator is invoked exactly once,
with `bytes_to_pages bits R` pages, policy `AnyPages` and memory type
`ACPI_NON_VOLATILE`, and the bytes copied into the new allocation —
before the retry, as the trace order shows — are exactly the
`fdt_data.length` (the occupied length before the call) bytes of the
original buffer. -/
theorem fixup_fdt_grow_alloc_copy (bits R : Nat) (fixup : FixupProto)
    (alloc : PageAlloc) (fdt_data region : List Nat)
    (hb : fixup 0 fdt_data fdt_data.length FIXUP_FLAGS =
      { status := BUFFER_TOO_SMALL bits, sizeOut := R })
    (halloc : alloc .anyPages ACPI_NON_VOLATILE (bytes_to_pages bits R) =
      .ok region) :
    (fixup_fdt bits (.ok fixup) alloc fdt_data).2 =
      [Event.fixupCall fdt_data fdt_data.length FIXUP_FLAGS,
       Event.alloc .anyPages ACPI_NON_VOLATILE (bytes_to_pages bits R),
       Event.copy fdt_data,
       Event.fixupCall (fdt_data ++ region.drop fdt_data.length)
         ((bytes_to_pages bits R <<< UEFI_PAGE_BITS) % 2 ^ bits)
         FIXUP_FLAGS] ∧
    (fixup_fdt bits (.ok fixup) alloc fdt_data).2.filterMap Event.allocArgs =
      [(AllocateType.anyPages, ACPI_NON_VOLATILE, bytes_to_pages bits R)] ∧
    (fixup_fdt bits (.ok fixup) alloc fdt_data).2.filterMap Event.copyBytes =
      [fdt_data] := by
  have htr := fixup_fdt_grow_eq bits R fixup alloc fdt_data region hb halloc
  rw [htr]
  refine ⟨rfl, ?_, ?_⟩ <;> simp [Event.allocArgs, Event.copyBytes]

/-- The fixup stub used as C1's witness: `BUFFER_TOO_SMALL` requiring
6000 bytes on the first call, success on the retry. -/
def stubGrowOnce : FixupProto := fun idx _ _ _ =>
  if idx = 0 then { status := BUFFER_TOO_SMALL 64, sizeOut := 6000 }
  else { status := EFI_SUCCESS, sizeOut := 0 }

/-- An allocator stub that always hands out an (empty-content) region. -/
def allocNil : PageAlloc := fun _ _ _ => .ok []

/-- Witness for C1: on a 2-byte blob with required size 6000, the single
allocation requests `bytes_to_pages 64 6000` pages of `ACPI_NON_VOLATILE`
memory at any address and the copy carries exactly the original bytes. -/
theorem fixup_fdt_grow_alloc_copy_witness :
    (fixup_fdt 64 (.ok stubGrowOnce) allocNil [1, 2]).2.filterMap
        Event.allocArgs =
      [(AllocateType.anyPages, ACPI_NON_VOLATILE, bytes_to_pages 64 6000)] ∧
    (fixup_fdt 64 (.ok stubGrowOnce) allocNil [1, 2]).2.filterMap
        Event.copyBytes = [[1, 2]] :=
  ⟨(fixup_fdt_grow_alloc_copy 64 6000 stubGrowOnce allocNil [1, 2] []
      (by decide) rfl).2.1,
   (fixup_fdt_grow_alloc_copy 64 6000 stubGrowOnce allocNil [1, 2] []
      (by decide) rfl).2.2⟩

/-- C2: after a first `BUFFER_TOO_SMALL` outcome (with a successful
allocation), the fixup call is retried exactly once, on the new buffer
with the page-rounded size, and the retry's `to_result` outcome —
success or any error, a second `BUFFER_TOO_SMALL` included — is returned
as final: the trace holds exactly two fixup invocations, and in every
execution of `fixup_fdt` whatsoever at most one allocation and at most
two fixup invocations occur. -/
theorem fixup_fdt_single_retry (bits R : Nat) (fixup : FixupProto)
    (alloc : PageAlloc) (fdt_data region : List Nat)
    (hb : fixup 0 fdt_data fdt_data.length FIXUP_FLAGS =
      { status := BUFFER_TOO_SMALL bits, sizeOut := R })
    (halloc : alloc .anyPages ACPI_NON_VOLATILE (bytes_to_pages bits R) =
      .ok region) :
    (fixup_fdt bits (.ok fixup) alloc fdt_data).1 =
      status_to_result (fixup 1 (fdt_data ++ region.drop fdt_data.length)
        ((bytes_to_pages bits R <<< UEFI_PAGE_BITS) % 2 ^ bits)
        FIXUP_FLAGS).status ∧
    (fixup_fdt bits (.ok fixup) alloc fdt_data).2.countP Event.isFixup = 2 ∧
    ∀ (op : Except Nat FixupProto) (al : PageAlloc) (d : List Nat),
      (fixup_fdt bits op al d).2.countP Event.isAlloc ≤ 1 ∧
      (fixup_fdt bits op al d).2.countP Event.isFixup ≤ 2 := by
  have htr := fixup_fdt_grow_eq bits R fixup alloc fdt_data region hb halloc
  refine ⟨by rw [htr], ?_, ?_⟩
  · rw [htr]
    simp [List.countP_cons, Event.isFixup, Event.isAlloc]
  · intro op al d
    cases op with
    | error e => simp [fixup_fdt]
    | ok f =>
      by_cases h1 : (f 0 d d.length FIXUP_FLAGS).status = EFI_SUCCESS
      · simp [fixup_fdt, h1, List.countP_cons, Event.isFixup, Event.isAlloc]
      · by_cases h2 : (f 0 d d.length FIXUP_FLAGS).status =
            BUFFER_TOO_SMALL bits
        · cases hal : al .anyPages ACPI_NON_VOLATILE
              (bytes_to_pages bits (f 0 d d.length FIXUP_FLAGS).sizeOut) with
          | error e =>
            simp [fixup_fdt, h1, h2, hal, BUFFER_TOO_SMALL_ne_success bits,
              List.countP_cons, Event.isFixup, Event.isAlloc]
          | ok region =>
            simp [fixup_fdt, h1, h2, hal, BUFFER_TOO_SMALL_ne_success bits,
              List.countP_cons, Event.isFixup, Event.isAlloc]
        · simp [fixup_fdt, h1, h2, List.countP_cons, Event.isFixup,
            Event.isAlloc]

/-- The fixup stub used as C2's witness: `BUFFER_TOO_SMALL` on every
call. -/
def stubAlwaysTooSmall : FixupProto := fun _ _ _ _ =>
  { status := BUFFER_TOO_SMALL 64, sizeOut := 6000 }

/-- Witness for C2: with `BUFFER_TOO_SMALL` on both calls the second
failure is final, exactly two fixup invocations and at most one
allocation occur. -/
theorem fixup_fdt_single_retry_witness :
    (fixup_fdt 64 (.ok stubAlwaysTooSmall) allocNil [1, 2]).1 =
      .error (BUFFER_TOO_SMALL 64) ∧
    (fixup_fdt 64 (.ok stubAlwaysTooSmall) allocNil [1, 2]).2.countP
      Event.isFixup = 2 ∧
    (fixup_fdt 64 (.ok stubAlwaysTooSmall) allocNil [1, 2]).2.countP
      Event.isAlloc ≤ 1 :=
  ⟨(fixup_fdt_single_retry 64 6000 stubAlwaysTooSmall allocNil [1, 2] []
      rfl rfl).1,
   (fixup_fdt_single_retry 64 6000 stubAlwaysTooSmall allocNil [1, 2] []
      rfl rfl).2.1,
   ((fixup_fdt_single_retry 64 6000 stubAlwaysTooSmall allocNil [1, 2] []
      rfl rfl).2.2 (.ok stubAlwaysTooSmall) allocNil [1, 2]).1⟩

/-- C8: every fixup invocation `fixup_fdt` ever makes — initial call and
retry alike — passes the flags value `FIXUP_FLAGS`, which is
`APPLY_FIXUPS | RESERVE_MEMORY` with bit 0 (`ApplyFixups`) and bit 1
(`ReserveMemory`) both set simultaneously. -/
theorem fixup_fdt_flags_always_both (bits : Nat) (op : Except Nat FixupProto)
    (alloc : PageAlloc) (fdt_data buf : List Nat) (sz fl : Nat)
    (h : Event.fixupCall buf sz fl ∈ (fixup_fdt bits op alloc fdt_data).2) :
    fl = FIXUP_FLAGS ∧ FIXUP_FLAGS = APPLY_FIXUPS ||| RESERVE_MEMORY ∧
    FIXUP_FLAGS.testBit 0 = true ∧ FIXUP_FLAGS.testBit 1 = true := by
  refine ⟨?_, rfl, by decide, by decide⟩
  cases op with
  | error e => simp [fixup_fdt] at h
  | ok f =>
    by_cases h1 : (f 0 fdt_data fdt_data.length FIXUP_FLAGS).status =
        EFI_SUCCESS
    · simp [fixup_fdt, h1] at h
      exact h.2.2
    · by_cases h2 : (f 0 fdt_data fdt_data.length FIXUP_FLAGS).status =
          BUFFER_TOO_SMALL bits
      · cases hal : alloc .anyPages ACPI_NON_VOLATILE
            (bytes_to_pages bits
              (f 0 fdt_data fdt_data.length FIXUP_FLAGS).sizeOut) with
        | error e =>
          simp [fixup_fdt, h1, h2, hal, BUFFER_TOO_SMALL_ne_success bits] at h
          exact h.2.2
        | ok region =>
          simp [fixup_fdt, h1, h2, hal, BUFFER_TOO_SMALL_ne_success bits] at h
          rcases h with ⟨_, _, hf⟩ | ⟨_, _, hf⟩ <;> exact hf
      · simp [fixup_fdt, h1, h2] at h
        exact h.2.2

/-- Witness for C8: the single invocation made by a first-call-success
run carries both flag bits. -/
theorem fixup_fdt_flags_always_both_witness :
    FIXUP_FLAGS = APPLY_FIXUPS ||| RESERVE_MEMORY ∧
    FIXUP_FLAGS.testBit 0 = true ∧ FIXUP_FLAGS.testBit 1 = true :=
  (fixup_fdt_flags_always_both 64
    (.ok fun _ _ _ _ => { status := EFI_SUCCESS, sizeOut := 0 })
    (fun _ _ _ => .ok []) [1] [1] 1 FIXUP_FLAGS (by decide)).2
